import Mathlib

/-!
Verification of the layout pipeline of `items_app.py` ("Items Booking").

The program builds a landscape-A4 PDF from a list of uploaded images with the
`fpdf` (pyFPDF) library: for every batch of two images it adds a page, draws a
two-cell header row, and for each image draws a bordered 80mm x 90mm image cell
(the image itself inset by 2mm and stretched to 76mm x 86mm) next to an empty
190mm x 90mm data cell.

The embedding below mirrors the fpdf drawing primitives the script uses,
at the granularity of the emitted draw operations:

* a `PdfState` carries the pages built so far (each page an ordered list of
  draw operations), the text cursor, the last cell height (used by `ln()`),
  the current font, and bookkeeping for the temporary files the script
  creates and removes;
* `cell` implements fpdf's automatic page break: by default fpdf breaks a
  page whenever a cell would end below `page height - 20mm` (the default
  auto-page-break bottom margin of 2 cm), the triggering cell being drawn at
  the top of a freshly added page.  The script never disables this.
* `add_page` closes the previous page by drawing the `PDF.footer` override
  (`set_y(-15)` then a centred "Page n" cell) and opens a new page with the
  cursor at the margins.  (`PDF.header` only selects a font and draws
  nothing; fpdf restores the font after the header, so it has no effect.)

All lengths are in millimetres as integers.  (fpdf computes internally in
points, so the true A4-landscape page is 210.0016mm high and the default
break margin is 20.0025mm; every comparison the script ever performs is at
least 10mm away from the relevant threshold, so the integer model takes the
branch fpdf takes.)

Failures (an undecodable uploaded image) are modelled by an error flag in the
state: every primitive is a no-op once the flag is set, which is exactly the
effect of the Python exception aborting the rest of `generate_pdf`.
-/

namespace ItemsApp

/-- Model of a PIL image: its pixel dimensions and whether the raster carries
an alpha (transparency) channel. -/
structure PILImage where
  width : ℤ
  height : ℤ
  hasAlpha : Bool
deriving DecidableEq

/-- `Image.convert('RGB')`: flatten to a non-transparent RGB raster (drops any alpha
channel; pixel dimensions unchanged). -/
def convertRGB (i : PILImage) : PILImage :=
  { i with hasAlpha := false }

/-- An uploaded file: `decode` is the result of `PIL.Image.open` on its bytes
(`none` when the bytes are not a decodable image), and `errMsg` the message of
the exception `Image.open` raises in that case. -/
structure ImgFile where
  decode : Option PILImage
  errMsg : String
deriving DecidableEq

/-- One drawing operation emitted onto a page.

For `cell`, `(xReq, yReq)` is the cursor position at which the cell was
requested and `(x, y)` the position at which it was actually drawn; the two
differ exactly when fpdf's automatic page break moved the cell to the top of
a new page.  `w` is the width after fpdf's `w = 0` expansion ("extend to the
right margin"). -/
inductive Op where
  | cell (xReq yReq x y w h : ℤ) (txt : String) (border : Bool)
      (fontStyle : String) (fontSize : ℤ) (align : String)
  | rect (x y w h : ℤ)
  | image (name : String) (img : PILImage) (x y w h : ℤ)
deriving DecidableEq

/-- A4 landscape page width (mm): 297. -/
def pageW : ℤ := 297

/-- A4 landscape page height (mm): 210. -/
def pageH : ℤ := 210

/-- `margin = 10`, installed by `pdf.set_margins(margin, margin, margin)` as
the left, top and right margin. -/
def margin : ℤ := 10

/-- `col_width_img = 80`: width of the image column. -/
def col_width_img : ℤ := 80

/-- `col_width_other = 190`: width of the data column. -/
def col_width_other : ℤ := 190

/-- `row_height = 90`: height allocated for each image row. -/
def row_height : ℤ := 90

/-- fpdf's default auto-page-break bottom margin (2 cm); the script never
calls `set_auto_page_break`, so it stays in force. -/
def b_margin : ℤ := 20

/-- fpdf's page-break trigger: a cell ending below this y starts a new page. -/
def page_break_trigger : ℤ := pageH - b_margin

/-- `PDF.footer` begins with `self.set_y(-15)`: the footer baseline, 15mm from
the bottom of the page. -/
def footer_set_y : ℤ := pageH - 15

/-- The full drawing state of the `FPDF` object, together with the temporary
files the surrounding script has created and removed so far. -/
structure PdfState where
  /-- The document: one list of draw operations per page, in order; the last
  page is the currently open one. -/
  pages : List (List Op)
  x : ℤ
  y : ℤ
  /-- Height of the last printed cell (`ln()` with no argument advances by
  this much). -/
  lasth : ℤ
  fontStyle : String
  fontSize : ℤ
  /-- Counter feeding the temporary-file name supply. -/
  nextTmp : ℕ
  /-- Names of the temporary files created so far (`delete=False`). -/
  tmpCreated : List String
  /-- Names of the temporary files removed so far (`os.remove`). -/
  tmpRemoved : List String
  /-- `some msg` once a Python exception with message `msg` is in flight:
  every later drawing step is skipped. -/
  err : Option String
deriving DecidableEq

/-- State of a fresh `PDF(orientation='L', unit='mm', format='A4')` after
`set_margins`: no page yet, cursor at the margins. -/
def initState : PdfState :=
  { pages := [], x := margin, y := margin, lasth := 0,
    fontStyle := "", fontSize := 12,
    nextTmp := 0, tmpCreated := [], tmpRemoved := [], err := none }

/-- Append a draw operation to the last (current) page. -/
def appendLast (ps : List (List Op)) (op : Op) : List (List Op) :=
  match ps with
  | [] => []
  | [p] => [p ++ [op]]
  | p :: q :: r => p :: appendLast (q :: r) op

/-- `set_font(family, style, size)`: only the style and size matter for the
emitted operations. -/
def set_font (st : PdfState) (style : String) (size : ℤ) : PdfState :=
  if st.err.isSome then st else { st with fontStyle := style, fontSize := size }

/-- fpdf `set_y`: negative values count from the bottom of the page; `set_y`
also resets x to the left margin. -/
def set_y (st : PdfState) (y : ℤ) : PdfState :=
  if st.err.isSome then st
  else { st with x := margin, y := if 0 ≤ y then y else pageH + y }

/-- fpdf `set_x`: negative values count from the right edge. -/
def set_x (st : PdfState) (x : ℤ) : PdfState :=
  if st.err.isSome then st
  else { st with x := if 0 ≤ x then x else pageW + x }

/-- fpdf `set_xy(x, y)` is `set_y` followed by `set_x`. -/
def set_xy (st : PdfState) (x y : ℤ) : PdfState :=
  set_x (set_y st y) x

/-- fpdf `ln()` with no argument: x back to the left margin, y advanced by
the height of the last printed cell. -/
def ln (st : PdfState) : PdfState :=
  if st.err.isSome then st else { st with x := margin, y := st.y + st.lasth }

/-- The body of fpdf `cell` minus the page-break check (the page-break check
is disabled while the footer is being drawn, and `cell` below performs it
before delegating here): expand `w = 0` to "up to the right margin", draw the
cell at the cursor, advance x by the drawn width, record the cell height for
`ln()`.  `(xReq, yReq)` is the cursor at which the enclosing `cell` call was
made, recorded in the emitted operation. -/
def cellRaw (st : PdfState) (xReq yReq w h : ℤ) (txt : String) (border : Bool)
    (align : String) : PdfState :=
  if st.err.isSome then st
  else if st.pages = [] then { st with err := some "No page open" }
  else
    let w' := if w = 0 then pageW - margin - st.x else w
    { st with
      pages := appendLast st.pages
        (.cell xReq yReq st.x st.y w' h txt border st.fontStyle st.fontSize align),
      x := st.x + w', lasth := h }

/-- `PDF.footer` override: `set_y(-15)`, italic 8pt font, centred
`"Page n"` cell across the page (`cell(0, 10, ..., 0, 0, 'C')`).  It is
invoked by fpdf with `in_footer` set, so its cell never page-breaks. -/
def footer (st : PdfState) : PdfState :=
  let st := set_y st (-15)
  let st := set_font st "I" 8
  cellRaw st st.x st.y 0 10 ("Page " ++ toString st.pages.length) false "C"

/-- fpdf `add_page`: draw the footer on the page being closed (if any), open
a fresh page with the cursor at the margins.  `PDF.header` only sets a font,
and fpdf restores the previous font after the header, so fonts are
unchanged. -/
def add_page (st : PdfState) : PdfState :=
  if st.err.isSome then st
  else
    let fs := st.fontStyle
    let fz := st.fontSize
    let st := if st.pages = [] then st else footer st
    { st with pages := st.pages ++ [[]], x := margin, y := margin,
              fontStyle := fs, fontSize := fz }

/-- fpdf `cell(w, h, txt, border, 0, align)` with the automatic page break:
if the cell would end below `page_break_trigger` (and we are not inside the
footer, which is the case at every call below), fpdf adds a page, restores x,
and draws the cell at the top of the new page. -/
def cell (st : PdfState) (w h : ℤ) (txt : String) (border : Bool)
    (align : String) : PdfState :=
  if st.err.isSome then st
  else if st.y + h > page_break_trigger then
    let xReq := st.x
    let yReq := st.y
    let st := add_page st
    let st := { st with x := xReq }
    cellRaw st xReq yReq w h txt border align
  else cellRaw st st.x st.y w h txt border align

/-- fpdf `rect(x, y, w, h)`: draw a rectangle outline; the cursor does not
move. -/
def rect (st : PdfState) (x y w h : ℤ) : PdfState :=
  if st.err.isSome then st
  else if st.pages = [] then { st with err := some "No page open" }
  else { st with pages := appendLast st.pages (.rect x y w h) }

/-- fpdf `image(name, x, y, w, h)`: place the image file `name` stretched to
the given box; with x and y supplied, no page-break check is made and the
cursor does not move. -/
def image (st : PdfState) (name : String) (img : PILImage) (x y w h : ℤ) :
    PdfState :=
  if st.err.isSome then st
  else if st.pages = [] then { st with err := some "No page open" }
  else { st with pages := appendLast st.pages (.image name img x y w h) }

/-- The body of `for img_file in batch:` in `generate_pdf` (lines 53-82):
save the cursor, draw the image-cell border, stage the image through a
`delete=False` temporary file (created before the image is decoded, removed
only after the image has been placed), flatten it with `convert('RGB')`,
place it 2mm inside the cell stretched to `(80-4) x (90-4)`, draw the empty
data cell next to it, and move the cursor to the start of the next row.
`names` supplies the operating system's fresh temporary-file names. -/
def processRow (names : ℕ → String) (st : PdfState) (img_file : ImgFile) :
    PdfState :=
  if st.err.isSome then st
  else
    let x_start := st.x
    let y_start := st.y
    -- 1. Draw the Image Cell Border
    let st := rect st x_start y_start col_width_img row_height
    if st.err.isSome then st
    else
      -- tempfile.NamedTemporaryFile(delete=False, suffix=".jpg")
      let tmp := names st.nextTmp ++ ".jpg"
      let st := { st with nextTmp := st.nextTmp + 1,
                          tmpCreated := st.tmpCreated ++ [tmp] }
      match img_file.decode with
      | none =>
        -- Image.open raises; the exception propagates and os.remove is
        -- never reached, so the temporary file survives.
        { st with err := some img_file.errMsg }
      | some pil =>
        let pil_image := convertRGB pil
        -- pil_image.save(tmp.name): the flattened JPEG is written to tmp.
        -- 2. Insert the Image
        let st := image st tmp pil_image (x_start + 2) (y_start + 2)
          (col_width_img - 4) (row_height - 4)
        if st.err.isSome then st
        else
          -- os.remove(tmp_path)
          let st := { st with tmpRemoved := st.tmpRemoved ++ [tmp] }
          -- 3. Draw the "Other Data" Cell Border (Empty for now)
          let st := set_xy st (x_start + col_width_img) y_start
          let st := cell st col_width_other row_height "" true ""
          set_xy st x_start (y_start + row_height)

/-- One iteration of `for i in range(0, len(images), 2):` (lines 34-53):
`add_page`, the two header cells, `ln()`, then the rows of the batch. -/
def processBatch (names : ℕ → String) (header_text : String) (st : PdfState)
    (batch : List ImgFile) : PdfState :=
  let st := add_page st
  -- --- Draw Table Headers ---
  let st := set_font st "B" 12
  let st := cell st col_width_img 10 header_text true "C"
  let st := cell st col_width_other 10 "Notes / Data" true "L"
  let st := ln st
  batch.foldl (processRow names) st

/-- `images[i:i+2]` for `i in range(0, len(images), 2)`: the consecutive
batches of at most two images, in input order. -/
def chunks2 : List ImgFile → List (List ImgFile)
  | [] => []
  | [a] => [[a]]
  | a :: b :: rest => [a, b] :: chunks2 rest

/-- `generate_pdf(images, header_text)` (lines 21-84): fold the batches over
a fresh document.  `names` supplies the fresh temporary-file names (the only
nondeterminism in the pipeline). -/
def generate_pdf (names : ℕ → String) (images : List ImgFile)
    (header_text : String) : PdfState :=
  (chunks2 images).foldl (processBatch names header_text) initState

/-- `pdf.output(...)` closes the document: fpdf's `close` adds a page if none
was ever added, then draws the footer of the last page. -/
def output (st : PdfState) : PdfState :=
  if st.err.isSome then st
  else
    let st := if st.pages = [] then add_page st else st
    footer st

/-- Outcome of one run of the Streamlit driver (lines 100-131). -/
inductive UIOutcome where
  /-- `st.info`: shown when no images are uploaded; nothing is generated. -/
  | info (msg : String)
  /-- `st.download_button(label, data, file_name, mime)`: the artifact is
  offered for download; `doc` is the rendered document, and the temp-file
  logs are carried for inspection. -/
  | download (label fileName mime : String) (doc : List (List Op))
      (tmpCreated tmpRemoved : List String)
  /-- `st.error`: the single user-visible message shown when the build
  raised. -/
  | errorMsg (msg : String) (tmpCreated tmpRemoved : List String)
deriving DecidableEq

/-- The Streamlit driver (lines 100-131): with no uploads, only an info
prompt; otherwise run `generate_pdf`, and on success stage the document
through a `delete=False` `.pdf` temporary file (which is never removed) and
offer the bytes for download; on failure show `st.error` with the
exception's message. -/
def run_app (names : ℕ → String) (uploaded_files : List ImgFile)
    (col_header : String) : UIOutcome :=
  if uploaded_files = [] then
    .info "Please upload images to start."
  else
    let st := generate_pdf names uploaded_files col_header
    match st.err with
    | some e => .errorMsg ("An error occurred: " ++ e) st.tmpCreated st.tmpRemoved
    | none =>
      -- tempfile.NamedTemporaryFile(delete=False, suffix=".pdf");
      -- the file is read back but never deleted.
      let tmp_pdf := names st.nextTmp ++ ".pdf"
      let st := { st with nextTmp := st.nextTmp + 1,
                          tmpCreated := st.tmpCreated ++ [tmp_pdf] }
      let st := output st
      .download "📥 Download PDF" "landscape_photos.pdf" "application/pdf"
        st.pages st.tmpCreated st.tmpRemoved

/-- The temporary files a run created and never removed. -/
def UIOutcome.leaked : UIOutcome → List String
  | .info _ => []
  | .download _ _ _ _ cr rm => cr.filter (fun s => !(rm.contains s))
  | .errorMsg _ cr rm => cr.filter (fun s => !(rm.contains s))

/-- A concrete temporary-file name supply, for evaluating the model. -/
def tnames : ℕ → String := fun k => "tmp" ++ toString k

/-- A decodable 640x480 non-transparent image (e.g. a JPEG upload). -/
def jpgSample : ImgFile := ⟨some ⟨640, 480, false⟩, "decode failure"⟩

/-- A decodable 320x200 image with an alpha channel (a transparent PNG). -/
def pngAlphaSample : ImgFile := ⟨some ⟨320, 200, true⟩, "decode failure"⟩

/-- An upload whose bytes are not a decodable image. -/
def badSample : ImgFile := ⟨none, "cannot identify image file"⟩

/-- The run on two decodable images with label `"pic"`. -/
def run2 : PdfState := generate_pdf tnames [jpgSample, jpgSample] "pic"

/-- The run on three decodable images with label `"pic"`. -/
def run3 : PdfState := generate_pdf tnames [jpgSample, jpgSample, jpgSample] "pic"

/-- Erase from a draw operation the data that may legitimately differ between
two runs on identical inputs: the staging file name recorded in an image
placement.  Geometry (coordinates, sizes, text, fonts) is kept. -/
def scrubOp : Op → Op
  | .image _ i x y w h => .image "" i x y w h
  | op => op

/-- The deterministic part of a drawing state: all geometry, with staging
file names and temporary-file bookkeeping erased. -/
def scrub (st : PdfState) : PdfState :=
  { st with pages := st.pages.map (List.map scrubOp),
            nextTmp := 0, tmpCreated := [], tmpRemoved := [] }

/-- The first uploaded file that does not decode, if any (the one whose
`Image.open` raises first). -/
def firstBad (files : List ImgFile) : Option ImgFile :=
  files.find? (fun f => f.decode.isNone)

/-- `growsTo l l2`: the operation list `l2` extends `l` at the end.  Every
drawing primitive only ever appends to a page. -/
def growsTo (l l2 : List Op) : Prop := ∃ t, l2 = l ++ t

/-- `pageGrows st st2`: every page of `st` persists in `st2`, extended only
at its end (and possibly followed by new pages). -/
def pageGrows (st st2 : PdfState) : Prop :=
  ∀ i : ℕ, growsTo (st.pages.getD i []) (st2.pages.getD i [])

/-- `cellOK label op`: if `op` is a cell of the image-column header shape
(width `col_width_img`, height 10), its text is the caller's label. -/
def cellOK (label : String) (op : Op) : Prop :=
  ∀ xR yR x y t bo fs fz al,
    op = Op.cell xR yR x y col_width_img 10 t bo fs fz al → t = label

/-- `imageOK J op`: if `op` places an image, the image is stretched to the
2mm-inset box `(col_width_img - 4) x (row_height - 4)`, it has been
flattened, and its row's `col_width_img x row_height` border rectangle, 2mm
up and to the left of it, is among the operations `J`. -/
def imageOK (J : List Op) (op : Op) : Prop :=
  ∀ nm i x y w h, op = Op.image nm i x y w h →
    w = col_width_img - 4 ∧ h = row_height - 4 ∧ i.hasAlpha = false ∧
    Op.rect (x - 2) (y - 2) col_width_img row_height ∈ J

/-- The drawing invariant: every operation emitted so far is label-correct
and image-correct. -/
def InvP (label : String) (st : PdfState) : Prop :=
  ∀ op ∈ st.pages.flatten, cellOK label op ∧ imageOK st.pages.flatten op

/-- Error-free state with a page open and the cursor inside the page:
established by `add_page` and kept by every drawing step on decodable
input. -/
def good (st : PdfState) : Prop :=
  st.err.isSome = false ∧ st.pages ≠ [] ∧ 0 ≤ st.x ∧ 0 ≤ st.y

/-- C1: the claim asserts `generate_pdf` yields exactly `ceil(N/2)` pages.  It
does for N = 0 and N = 1, but for two images the document has 2 pages, not
`ceil(2/2) = 1`, and for three images 3 pages, not `ceil(3/2) = 2`: the second
image row of every full batch ends at y = 200mm, beyond fpdf's default
auto-page-break trigger at 190mm, so drawing its data cell opens an
unrequested extra page.  (The script never disables the automatic page
break.) -/
theorem C1_page_count_bug :
    (generate_pdf tnames [] "pic").pages.length = 0 ∧
    (generate_pdf tnames [jpgSample] "pic").pages.length = 1 ∧
    run2.pages.length = 2 ∧ run2.pages.length ≠ 1 ∧
    run3.pages.length = 3 ∧ run3.pages.length ≠ 2 := by
  decide

/-- C2: the claim asserts every page has at most 2 image rows, every image
row's image-cell and data-cell share the same vertical span, and a header
row is emitted once per page before any image row.  On two images the code
violates this: the second page of the document consists solely of the second
image row's data cell (drawn at y = 10 after the automatic page break), with
no header row, while that row's image cell sits on page 1 at y = 110 — the
two cells of the row share neither page nor vertical span. -/
theorem C2_spill_page_bug :
    run2.pages.length = 2 ∧
    Op.rect 10 110 80 90 ∈ run2.pages.getD 0 [] ∧
    run2.pages.getD 1 [] =
      [Op.cell 90 110 90 10 190 90 "" true "B" 12 ""] := by
  decide

/-- C6: with an empty upload list the driver only shows the info prompt — no
document is generated and no download is offered — and `generate_pdf` itself,
applied to an empty list, yields a document with zero pages and no error. -/
theorem C6_empty_input (names : ℕ → String) (label : String) :
    run_app names [] label = .info "Please upload images to start." ∧
    (generate_pdf names [] label).pages = [] ∧
    (generate_pdf names [] label).err = none := by
  refine ⟨?_, rfl, rfl⟩
  simp [run_app]

/-- C8: the claim asserts every temporary file is deleted before the
operation returns, on success and on failure.  The code leaks on both paths:
on a successful run the `.pdf` temporary holding the document bytes is
created with `delete=False` and never removed, and on a decode failure the
per-image `.jpg` staging file is created before `Image.open` raises, so
`os.remove` is never reached. -/
theorem C8_tmpfile_leak :
    (run_app tnames [jpgSample] "pic").leaked = ["tmp1.pdf"] ∧
    (run_app tnames [badSample] "pic").leaked = ["tmp0.jpg"] := by
  decide

/-! ### Structural lemmas about `appendLast` and page growth -/

theorem appendLast_eq_nil {ps : List (List Op)} {op : Op} :
    appendLast ps op = [] ↔ ps = [] := by
  cases ps with
  | nil => simp [appendLast]
  | cons p r => cases r <;> simp [appendLast]

theorem length_appendLast (ps : List (List Op)) (op : Op) :
    (appendLast ps op).length = ps.length := by
  induction ps with
  | nil => rfl
  | cons p r ih =>
    cases r with
    | nil => rfl
    | cons q t => simpa [appendLast] using ih

theorem flatten_appendLast {ps : List (List Op)} (op : Op) (hp : ps ≠ []) :
    (appendLast ps op).flatten = ps.flatten ++ [op] := by
  induction ps with
  | nil => exact absurd rfl hp
  | cons p r ih =>
    cases r with
    | nil => simp [appendLast]
    | cons q t => simp [appendLast, ih]

theorem growsTo_refl (l : List Op) : growsTo l l := ⟨[], by simp⟩

theorem growsTo_nil (l : List Op) : growsTo [] l := ⟨l, rfl⟩

theorem growsTo_trans {a b c : List Op} (h1 : growsTo a b) (h2 : growsTo b c) :
    growsTo a c := by
  obtain ⟨t1, rfl⟩ := h1
  obtain ⟨t2, rfl⟩ := h2
  exact ⟨t1 ++ t2, by simp⟩

theorem growsTo_mem {l l2 : List Op} {a : Op} (h : growsTo l l2) (ha : a ∈ l) :
    a ∈ l2 := by
  obtain ⟨t, rfl⟩ := h
  exact List.mem_append_left _ ha

theorem growsTo_head {l l2 : List Op} (h : growsTo l l2) (hne : l ≠ []) :
    l2.head? = l.head? := by
  obtain ⟨t, rfl⟩ := h
  cases l with
  | nil => exact absurd rfl hne
  | cons a u => rfl

theorem getD_appendLast (ps : List (List Op)) (op : Op) (i : ℕ) :
    growsTo (ps.getD i []) ((appendLast ps op).getD i []) := by
  induction ps generalizing i with
  | nil => exact growsTo_refl _
  | cons p r ih =>
    cases r with
    | nil =>
      cases i with
      | zero => exact ⟨[op], rfl⟩
      | succ j => exact growsTo_nil _
    | cons q t =>
      cases i with
      | zero => exact growsTo_refl _
      | succ j => exact ih j

theorem getD_pushPage (ps : List (List Op)) (i : ℕ) :
    growsTo (ps.getD i []) ((ps ++ [[]]).getD i []) := by
  induction ps generalizing i with
  | nil => exact growsTo_nil _
  | cons p r ih =>
    cases i with
    | zero => exact growsTo_refl _
    | succ j => exact ih j

theorem pageGrows_refl (st : PdfState) : pageGrows st st :=
  fun _ => growsTo_refl _

theorem pageGrows_trans {a b c : PdfState} (h1 : pageGrows a b)
    (h2 : pageGrows b c) : pageGrows a c :=
  fun i => growsTo_trans (h1 i) (h2 i)

theorem pageGrows_of_pages_eq {st st2 : PdfState} (h : st2.pages = st.pages) :
    pageGrows st st2 := by
  intro i
  rw [h]
  exact growsTo_refl _

theorem pageGrows_pages_eq (st st2 : PdfState) (h : st2.pages = st.pages) :
    pageGrows st st2 :=
  pageGrows_of_pages_eq h

/-! ### Every drawing primitive only appends to pages -/

theorem pageGrows_set_font (st : PdfState) (s : String) (z : ℤ) :
    pageGrows st (set_font st s z) := by
  apply pageGrows_of_pages_eq
  unfold set_font
  split <;> rfl

theorem pageGrows_set_y (st : PdfState) (y : ℤ) :
    pageGrows st (set_y st y) := by
  apply pageGrows_of_pages_eq
  unfold set_y
  split <;> rfl

theorem pageGrows_set_x (st : PdfState) (x : ℤ) :
    pageGrows st (set_x st x) := by
  apply pageGrows_of_pages_eq
  unfold set_x
  split <;> rfl

theorem pageGrows_set_xy (st : PdfState) (x y : ℤ) :
    pageGrows st (set_xy st x y) :=
  pageGrows_trans (pageGrows_set_y st y) (pageGrows_set_x _ x)

theorem pageGrows_ln (st : PdfState) : pageGrows st (ln st) := by
  apply pageGrows_of_pages_eq
  unfold ln
  split <;> rfl

theorem pageGrows_cellRaw (st : PdfState) (a b w h : ℤ) (t : String)
    (bo : Bool) (al : String) : pageGrows st (cellRaw st a b w h t bo al) := by
  unfold cellRaw
  split
  · exact pageGrows_refl st
  · split
    · exact pageGrows_of_pages_eq rfl
    · intro i
      exact getD_appendLast st.pages _ i

theorem pageGrows_rect (st : PdfState) (x y w h : ℤ) :
    pageGrows st (rect st x y w h) := by
  unfold rect
  split
  · exact pageGrows_refl st
  · split
    · exact pageGrows_of_pages_eq rfl
    · intro i
      exact getD_appendLast st.pages _ i

theorem pageGrows_image (st : PdfState) (nm : String) (img : PILImage)
    (x y w h : ℤ) : pageGrows st (image st nm img x y w h) := by
  unfold image
  split
  · exact pageGrows_refl st
  · split
    · exact pageGrows_of_pages_eq rfl
    · intro i
      exact getD_appendLast st.pages _ i

theorem pageGrows_footer (st : PdfState) : pageGrows st (footer st) := by
  unfold footer
  exact pageGrows_trans (pageGrows_set_y st _)
    (pageGrows_trans (pageGrows_set_font _ _ _) (pageGrows_cellRaw _ _ _ _ _ _ _ _))

theorem pageGrows_add_page (st : PdfState) : pageGrows st (add_page st) := by
  unfold add_page
  split
  · exact pageGrows_refl st
  · intro i
    show growsTo _ (((if st.pages = [] then st else footer st).pages ++ [[]]).getD i [])
    refine growsTo_trans ?_ (getD_pushPage _ i)
    split
    · exact growsTo_refl _
    · exact pageGrows_footer st i

theorem pageGrows_cell (st : PdfState) (w h : ℤ) (t : String) (bo : Bool)
    (al : String) : pageGrows st (cell st w h t bo al) := by
  unfold cell
  split
  · exact pageGrows_refl st
  · split
    · exact pageGrows_trans (pageGrows_add_page st)
        (pageGrows_trans (pageGrows_of_pages_eq rfl)
          (pageGrows_cellRaw _ _ _ _ _ _ _ _))
    · exact pageGrows_cellRaw _ _ _ _ _ _ _ _

theorem pageGrows_processRow (n : ℕ → String) (st : PdfState) (f : ImgFile) :
    pageGrows st (processRow n st f) := by
  by_cases h0 : st.err.isSome
  · simp only [processRow, h0, if_true]
    exact pageGrows_refl st
  · simp only [Bool.not_eq_true] at h0
    by_cases h1 : (rect st st.x st.y col_width_img row_height).err.isSome
    · simp only [processRow, h0, Bool.false_eq_true, if_false, h1, if_true]
      exact pageGrows_rect st st.x st.y col_width_img row_height
    · simp only [Bool.not_eq_true] at h1
      rcases hdec : f.decode with _ | pil
      · simp only [processRow, h0, Bool.false_eq_true, if_false, h1, hdec]
        exact pageGrows_trans (pageGrows_rect st st.x st.y col_width_img row_height)
          (pageGrows_of_pages_eq rfl)
      · simp only [processRow, h0, Bool.false_eq_true, if_false, h1, hdec]
        set A := rect st st.x st.y col_width_img row_height with hA
        set B := ({ A with nextTmp := A.nextTmp + 1, tmpCreated := A.tmpCreated ++ [n A.nextTmp ++ ".jpg"] } : PdfState) with hB
        set C := image B (n A.nextTmp ++ ".jpg") (convertRGB pil) (st.x + 2) (st.y + 2) (col_width_img - 4) (row_height - 4) with hC
        set C2 := ({ C with tmpRemoved := C.tmpRemoved ++ [n A.nextTmp ++ ".jpg"] } : PdfState) with hC2
        set D := set_xy C2 (st.x + col_width_img) st.y with hD
        set E := cell D col_width_other row_height "" true "" with hE
        have g1 : pageGrows st A := pageGrows_rect st st.x st.y col_width_img row_height
        have g2 : pageGrows A B := pageGrows_pages_eq A B rfl
        have g3 : pageGrows B C := pageGrows_image B (n A.nextTmp ++ ".jpg")
          (convertRGB pil) (st.x + 2) (st.y + 2) (col_width_img - 4) (row_height - 4)
        by_cases h2 : C.err.isSome
        · rw [if_pos h2]
          exact pageGrows_trans g1 (pageGrows_trans g2 g3)
        · rw [if_neg h2]
          have g4 : pageGrows C C2 := pageGrows_pages_eq C C2 rfl
          have g5 : pageGrows C2 D := pageGrows_set_xy C2 (st.x + col_width_img) st.y
          have g6 : pageGrows D E := pageGrows_cell D col_width_other row_height "" true ""
          have g7 : pageGrows E (set_xy E st.x (st.y + row_height)) :=
            pageGrows_set_xy E st.x (st.y + row_height)
          exact pageGrows_trans g1 (pageGrows_trans g2 (pageGrows_trans g3
            (pageGrows_trans g4 (pageGrows_trans g5 (pageGrows_trans g6 g7)))))

theorem pageGrows_foldl {α : Type} (g : PdfState → α → PdfState)
    (hg : ∀ s a, pageGrows s (g s a)) :
    ∀ (l : List α) (s : PdfState), pageGrows s (l.foldl g s) := by
  intro l
  induction l with
  | nil => exact fun s => pageGrows_refl s
  | cons a t ih => exact fun s => pageGrows_trans (hg s a) (ih (g s a))

/-! ### Equational characterisations of the primitives -/

theorem appendLast_concat (ps : List (List Op)) (q : List Op) (op : Op) :
    appendLast (ps ++ [q]) op = ps ++ [q ++ [op]] := by
  induction ps with
  | nil => rfl
  | cons p r ih =>
    cases r with
    | nil => rfl
    | cons p2 r2 => simpa [appendLast] using ih

theorem set_font_frozen (st : PdfState) (s : String) (z : ℤ)
    (h0 : st.err.isSome = true) : set_font st s z = st := by
  unfold set_font
  rw [if_pos h0]

theorem set_font_eq (st : PdfState) (s : String) (z : ℤ)
    (h0 : st.err.isSome = false) :
    set_font st s z = { st with fontStyle := s, fontSize := z } := by
  unfold set_font
  rw [if_neg (by simp [h0])]

theorem ln_frozen (st : PdfState) (h0 : st.err.isSome = true) : ln st = st := by
  unfold ln
  rw [if_pos h0]

theorem ln_eq (st : PdfState) (h0 : st.err.isSome = false) :
    ln st = { st with x := margin, y := st.y + st.lasth } := by
  unfold ln
  rw [if_neg (by simp [h0])]

theorem set_xy_frozen (st : PdfState) (x y : ℤ) (h0 : st.err.isSome = true) :
    set_xy st x y = st := by
  unfold set_xy set_x set_y
  rw [if_pos h0, if_pos h0]

theorem set_xy_eq (st : PdfState) (x y : ℤ) (h0 : st.err.isSome = false)
    (hx : 0 ≤ x) (hy : 0 ≤ y) :
    set_xy st x y = { st with x := x, y := y } := by
  unfold set_xy set_x set_y
  rw [if_neg (by simp [h0]), if_pos hy, if_neg (by simp [h0]), if_pos hx]

theorem cellRaw_frozen (st : PdfState) (xR yR w h : ℤ) (t : String) (bo : Bool)
    (al : String) (h0 : st.err.isSome = true) :
    cellRaw st xR yR w h t bo al = st := by
  unfold cellRaw
  rw [if_pos h0]

theorem cellRaw_eq (st : PdfState) (xR yR w h : ℤ) (t : String) (bo : Bool)
    (al : String) (h0 : st.err.isSome = false) (hp : st.pages ≠ []) :
    cellRaw st xR yR w h t bo al =
      { st with
        pages := appendLast st.pages (.cell xR yR st.x st.y
          (if w = 0 then pageW - margin - st.x else w) h t bo
          st.fontStyle st.fontSize al),
        x := st.x + (if w = 0 then pageW - margin - st.x else w), lasth := h } := by
  unfold cellRaw
  rw [if_neg (by simp [h0]), if_neg hp]

theorem rect_frozen (st : PdfState) (x y w h : ℤ) (h0 : st.err.isSome = true) :
    rect st x y w h = st := by
  unfold rect
  rw [if_pos h0]

theorem rect_nopage (st : PdfState) (x y w h : ℤ) (h0 : st.err.isSome = false)
    (hp : st.pages = []) :
    rect st x y w h = { st with err := some "No page open" } := by
  unfold rect
  rw [if_neg (by simp [h0]), if_pos hp]

theorem rect_eq (st : PdfState) (x y w h : ℤ) (h0 : st.err.isSome = false)
    (hp : st.pages ≠ []) :
    rect st x y w h = { st with pages := appendLast st.pages (.rect x y w h) } := by
  unfold rect
  rw [if_neg (by simp [h0]), if_neg hp]

theorem image_frozen (st : PdfState) (nm : String) (img : PILImage) (x y w h : ℤ)
    (h0 : st.err.isSome = true) : image st nm img x y w h = st := by
  unfold image
  rw [if_pos h0]

theorem image_eq (st : PdfState) (nm : String) (img : PILImage) (x y w h : ℤ)
    (h0 : st.err.isSome = false) (hp : st.pages ≠ []) :
    image st nm img x y w h =
      { st with pages := appendLast st.pages (.image nm img x y w h) } := by
  unfold image
  rw [if_neg (by simp [h0]), if_neg hp]

theorem set_y_frozen (st : PdfState) (y : ℤ) (h0 : st.err.isSome = true) :
    set_y st y = st := by
  unfold set_y
  rw [if_pos h0]

theorem footer_frozen (st : PdfState) (h0 : st.err.isSome = true) :
    footer st = st := by
  unfold footer
  dsimp only
  rw [set_y_frozen st _ h0, set_font_frozen st _ _ h0, cellRaw_frozen st _ _ _ _ _ _ _ h0]

theorem cellRaw_nopage (st : PdfState) (xR yR w h : ℤ) (t : String) (bo : Bool)
    (al : String) (h0 : st.err.isSome = false) (hp : st.pages = []) :
    cellRaw st xR yR w h t bo al = { st with err := some "No page open" } := by
  unfold cellRaw
  rw [if_neg (by simp [h0]), if_pos hp]

theorem set_y_neg15 (st : PdfState) (h0 : st.err.isSome = false) :
    set_y st (-15) = { st with x := margin, y := pageH + (-15) } := by
  unfold set_y
  rw [if_neg (by simp [h0]), if_neg (by decide)]

theorem footer_nopage (st : PdfState) (h0 : st.err.isSome = false)
    (hp : st.pages = []) :
    footer st = { st with x := margin, y := pageH + (-15),
                          fontStyle := "I", fontSize := 8,
                          err := some "No page open" } := by
  simp [footer, set_y, set_font, cellRaw, h0, hp]

theorem footer_eq (st : PdfState) (h0 : st.err.isSome = false)
    (hp : st.pages ≠ []) :
    footer st =
      { st with
        pages := appendLast st.pages (.cell margin (pageH + (-15)) margin
          (pageH + (-15)) (pageW - margin - margin) 10
          ("Page " ++ toString st.pages.length) false "I" 8 "C"),
        x := margin + (pageW - margin - margin), y := pageH + (-15),
        lasth := 10, fontStyle := "I", fontSize := 8 } := by
  simp [footer, set_y, set_font, cellRaw, h0, hp]

theorem add_page_frozen (st : PdfState) (h0 : st.err.isSome = true) :
    add_page st = st := by
  unfold add_page
  rw [if_pos h0]

theorem add_page_nil (st : PdfState) (h0 : st.err.isSome = false)
    (hp : st.pages = []) :
    add_page st = { st with pages := st.pages ++ [[]],
                            x := margin, y := margin } := by
  unfold add_page
  rw [if_neg (by simp [h0]), if_pos hp]

theorem add_page_eq (st : PdfState) (h0 : st.err.isSome = false)
    (hp : st.pages ≠ []) :
    add_page st = { footer st with pages := (footer st).pages ++ [[]],
                                   x := margin, y := margin,
                                   fontStyle := st.fontStyle,
                                   fontSize := st.fontSize } := by
  unfold add_page
  rw [if_neg (by simp [h0]), if_neg hp]

theorem cell_frozen (st : PdfState) (w h : ℤ) (t : String) (bo : Bool)
    (al : String) (h0 : st.err.isSome = true) : cell st w h t bo al = st := by
  unfold cell
  rw [if_pos h0]

theorem cell_nobr (st : PdfState) (w h : ℤ) (t : String) (bo : Bool)
    (al : String) (h0 : st.err.isSome = false)
    (hbr : ¬(st.y + h > page_break_trigger)) :
    cell st w h t bo al = cellRaw st st.x st.y w h t bo al := by
  unfold cell
  rw [if_neg (by simp [h0]), if_neg hbr]

theorem cell_br (st : PdfState) (w h : ℤ) (t : String) (bo : Bool)
    (al : String) (h0 : st.err.isSome = false)
    (hbr : st.y + h > page_break_trigger) :
    cell st w h t bo al =
      cellRaw { add_page st with x := st.x } st.x st.y w h t bo al := by
  unfold cell
  rw [if_neg (by simp [h0]), if_pos hbr]

theorem processRow_frozen (n : ℕ → String) (st : PdfState) (f : ImgFile)
    (h0 : st.err.isSome = true) : processRow n st f = st := by
  unfold processRow
  rw [if_pos h0]

theorem foldl_frozen {α : Type} (g : PdfState → α → PdfState)
    (hg : ∀ s a, s.err.isSome = true → g s a = s) (st : PdfState)
    (h0 : st.err.isSome = true) : ∀ l : List α, l.foldl g st = st := by
  intro l
  induction l with
  | nil => rfl
  | cons a t ih => rw [List.foldl_cons, hg st a h0]; exact ih

theorem processBatch_frozen (n : ℕ → String) (l : String) (st : PdfState)
    (batch : List ImgFile) (h0 : st.err.isSome = true) :
    processBatch n l st batch = st := by
  unfold processBatch
  dsimp only
  rw [add_page_frozen st h0, set_font_frozen st _ _ h0, cell_frozen st _ _ _ _ _ h0,
      cell_frozen st _ _ _ _ _ h0, ln_frozen st h0]
  exact foldl_frozen _ (fun s a => processRow_frozen n s a) st h0 batch

theorem processRow_nopage (n : ℕ → String) (st : PdfState) (f : ImgFile)
    (h0 : st.err.isSome = false) (hp : st.pages = []) :
    processRow n st f = { st with err := some "No page open" } := by
  simp [processRow, rect, h0, hp]

theorem processRow_bad (n : ℕ → String) (st : PdfState) (f : ImgFile)
    (h0 : st.err.isSome = false) (hp : st.pages ≠ []) (hdec : f.decode = none) :
    processRow n st f =
      { st with
        pages := appendLast st.pages (.rect st.x st.y col_width_img row_height),
        nextTmp := st.nextTmp + 1,
        tmpCreated := st.tmpCreated ++ [n st.nextTmp ++ ".jpg"],
        err := some f.errMsg } := by
  simp [processRow, rect, h0, hp, hdec]

theorem processRow_good_nobr (n : ℕ → String) (st : PdfState) (f : ImgFile)
    (pil : PILImage) (h0 : st.err.isSome = false) (hp : st.pages ≠ [])
    (hdec : f.decode = some pil) (hx : 0 ≤ st.x) (hy : 0 ≤ st.y)
    (hbr : ¬(st.y + row_height > page_break_trigger)) :
    processRow n st f =
      { st with
        pages := appendLast (appendLast (appendLast st.pages
            (.rect st.x st.y col_width_img row_height))
            (.image (n st.nextTmp ++ ".jpg") (convertRGB pil) (st.x + 2) (st.y + 2)
              (col_width_img - 4) (row_height - 4)))
            (.cell (st.x + col_width_img) st.y (st.x + col_width_img) st.y
              col_width_other row_height "" true st.fontStyle st.fontSize ""),
        x := st.x, y := st.y + row_height, lasth := row_height,
        nextTmp := st.nextTmp + 1,
        tmpCreated := st.tmpCreated ++ [n st.nextTmp ++ ".jpg"],
        tmpRemoved := st.tmpRemoved ++ [n st.nextTmp ++ ".jpg"] } := by
  have h80 : col_width_img = (80 : ℤ) := rfl
  have h90 : row_height = (90 : ℤ) := rfl
  have hx2 : (0 : ℤ) ≤ st.x + col_width_img := by omega
  have hy2 : (0 : ℤ) ≤ st.y + row_height := by omega
  have h190 : ¬(col_width_other = (0 : ℤ)) := by decide
  simp [processRow, rect, image, set_xy, set_x, set_y, cell, cellRaw,
    h0, hp, hdec, hbr, hx, hy, hx2, hy2, h190, appendLast_eq_nil]

theorem processRow_good_br (n : ℕ → String) (st : PdfState) (f : ImgFile)
    (pil : PILImage) (h0 : st.err.isSome = false) (hp : st.pages ≠ [])
    (hdec : f.decode = some pil) (hx : 0 ≤ st.x) (hy : 0 ≤ st.y)
    (hbr : st.y + row_height > page_break_trigger) :
    processRow n st f =
      { st with
        pages := appendLast (appendLast (appendLast st.pages
            (.rect st.x st.y col_width_img row_height))
            (.image (n st.nextTmp ++ ".jpg") (convertRGB pil) (st.x + 2) (st.y + 2)
              (col_width_img - 4) (row_height - 4)))
            (.cell margin (pageH + (-15)) margin (pageH + (-15))
              (pageW - margin - margin) 10 ("Page " ++ toString st.pages.length)
              false "I" 8 "C")
          ++ [[.cell (st.x + col_width_img) st.y (st.x + col_width_img) margin
              col_width_other row_height "" true st.fontStyle st.fontSize ""]],
        x := st.x, y := st.y + row_height, lasth := row_height,
        nextTmp := st.nextTmp + 1,
        tmpCreated := st.tmpCreated ++ [n st.nextTmp ++ ".jpg"],
        tmpRemoved := st.tmpRemoved ++ [n st.nextTmp ++ ".jpg"] } := by
  have h80 : col_width_img = (80 : ℤ) := rfl
  have h90 : row_height = (90 : ℤ) := rfl
  have hx2 : (0 : ℤ) ≤ st.x + col_width_img := by omega
  have hy2 : (0 : ℤ) ≤ st.y + row_height := by omega
  have h190 : ¬(col_width_other = (0 : ℤ)) := by decide
  simp [processRow, rect, image, set_xy, set_x, set_y, cell, cellRaw, add_page,
    footer, set_font, h0, hp, hdec, hbr, hx, hy, hx2, hy2, h190,
    appendLast_eq_nil, appendLast_concat, length_appendLast]

theorem processBatch_nil_eq (n : ℕ → String) (l : String) (st : PdfState)
    (batch : List ImgFile) (h0 : st.err.isSome = false) (hp : st.pages = []) :
    processBatch n l st batch = batch.foldl (processRow n)
      { st with
        pages := [[.cell margin margin margin margin col_width_img 10 l true "B" 12 "C",
          .cell (margin + col_width_img) margin (margin + col_width_img) margin
            col_width_other 10 "Notes / Data" true "B" 12 "L"]],
        x := margin, y := margin + 10, lasth := 10,
        fontStyle := "B", fontSize := 12 } := by
  have hBr : ¬((margin : ℤ) + 10 > page_break_trigger) := by decide
  have h80 : ¬(col_width_img = (0 : ℤ)) := by decide
  have h190 : ¬(col_width_other = (0 : ℤ)) := by decide
  simp [processBatch, add_page, set_font, cell, cellRaw, ln, appendLast,
    h0, hp, hBr, h80, h190]

theorem processBatch_cons_eq (n : ℕ → String) (l : String) (st : PdfState)
    (batch : List ImgFile) (h0 : st.err.isSome = false) (hp : st.pages ≠ []) :
    processBatch n l st batch = batch.foldl (processRow n)
      { st with
        pages := appendLast st.pages (.cell margin (pageH + (-15)) margin
            (pageH + (-15)) (pageW - margin - margin) 10
            ("Page " ++ toString st.pages.length) false "I" 8 "C")
          ++ [[.cell margin margin margin margin col_width_img 10 l true "B" 12 "C",
            .cell (margin + col_width_img) margin (margin + col_width_img) margin
              col_width_other 10 "Notes / Data" true "B" 12 "L"]],
        x := margin, y := margin + 10, lasth := 10,
        fontStyle := "B", fontSize := 12 } := by
  have hBr : ¬((margin : ℤ) + 10 > page_break_trigger) := by decide
  have h80 : ¬(col_width_img = (0 : ℤ)) := by decide
  have h190 : ¬(col_width_other = (0 : ℤ)) := by decide
  simp [processBatch, add_page, footer, set_y, set_font, cell, cellRaw, ln,
    appendLast_eq_nil, appendLast_concat, h0, hp, hBr, h80, h190]

theorem pageGrows_processBatch (n : ℕ → String) (l : String) (st : PdfState)
    (batch : List ImgFile) : pageGrows st (processBatch n l st batch) := by
  unfold processBatch
  dsimp only
  refine pageGrows_trans (pageGrows_add_page st) ?_
  refine pageGrows_trans (pageGrows_set_font (add_page st) "B" 12) ?_
  refine pageGrows_trans (pageGrows_cell _ col_width_img 10 l true "C") ?_
  refine pageGrows_trans (pageGrows_cell _ col_width_other 10 "Notes / Data" true "L") ?_
  refine pageGrows_trans (pageGrows_ln _) ?_
  exact pageGrows_foldl _ (pageGrows_processRow n) batch _

/-! ### Error propagation: a decode failure aborts the whole build -/

theorem good_processRow (n : ℕ → String) (st : PdfState) (f : ImgFile)
    (pil : PILImage) (hg : good st) (hdec : f.decode = some pil) :
    good (processRow n st f) := by
  obtain ⟨h0, hp, hx, hy⟩ := hg
  have h90 : row_height = (90 : ℤ) := rfl
  by_cases hbr : st.y + row_height > page_break_trigger
  · rw [processRow_good_br n st f pil h0 hp hdec hx hy hbr]
    refine ⟨h0, by simp, hx, ?_⟩
    show (0 : ℤ) ≤ st.y + row_height
    omega
  · rw [processRow_good_nobr n st f pil h0 hp hdec hx hy hbr]
    refine ⟨h0, by simp [appendLast_eq_nil, hp], hx, ?_⟩
    show (0 : ℤ) ≤ st.y + row_height
    omega

theorem err_processRow_bad (n : ℕ → String) (st : PdfState) (f : ImgFile)
    (hg : good st) (hdec : f.decode = none) :
    (processRow n st f).err = some f.errMsg := by
  obtain ⟨h0, hp, hx, hy⟩ := hg
  rw [processRow_bad n st f h0 hp hdec]

theorem fold_rows_good (n : ℕ → String) (batch : List ImgFile) :
    ∀ st : PdfState, good st → (∀ f ∈ batch, f.decode.isSome) →
      good (batch.foldl (processRow n) st) := by
  induction batch with
  | nil => exact fun st hg _ => hg
  | cons a t ih =>
    intro st hg hall
    rw [List.foldl_cons]
    rcases ha : a.decode with _ | pil
    · exact absurd (hall a (by simp)) (by simp [ha])
    · exact ih _ (good_processRow n st a pil hg ha) (fun f hf => hall f (by simp [hf]))

theorem fold_rows_bad (n : ℕ → String) (batch : List ImgFile) (g : ImgFile) :
    ∀ st : PdfState, good st →
      batch.find? (fun f => f.decode.isNone) = some g →
      (batch.foldl (processRow n) st).err = some g.errMsg := by
  induction batch with
  | nil => intro st _ hfind; simp at hfind
  | cons a t ih =>
    intro st hg hfind
    rw [List.foldl_cons]
    rcases ha : a.decode with _ | pil
    · rw [List.find?_cons_of_pos _ (by simp [ha])] at hfind
      injection hfind with hfind
      subst hfind
      have herr := err_processRow_bad n st a hg ha
      rw [foldl_frozen _ (fun s x => processRow_frozen n s x) _ (by simp [herr]) t]
      exact herr
    · rw [List.find?_cons_of_neg _ (by simp [ha])] at hfind
      exact ih _ (good_processRow n st a pil hg ha) hfind

theorem good_processBatch (n : ℕ → String) (l : String) (st : PdfState)
    (batch : List ImgFile) (h0 : st.err.isSome = false)
    (hall : ∀ f ∈ batch, f.decode.isSome) :
    good (processBatch n l st batch) := by
  by_cases hp : st.pages = []
  · rw [processBatch_nil_eq n l st batch h0 hp]
    exact fold_rows_good n batch _ ⟨h0, by simp,
      (by decide : (0 : ℤ) ≤ margin), (by decide : (0 : ℤ) ≤ margin + 10)⟩ hall
  · rw [processBatch_cons_eq n l st batch h0 hp]
    exact fold_rows_good n batch _ ⟨h0, by simp,
      (by decide : (0 : ℤ) ≤ margin), (by decide : (0 : ℤ) ≤ margin + 10)⟩ hall

theorem err_processBatch_bad (n : ℕ → String) (l : String) (st : PdfState)
    (batch : List ImgFile) (g : ImgFile) (h0 : st.err.isSome = false)
    (hfind : batch.find? (fun f => f.decode.isNone) = some g) :
    (processBatch n l st batch).err = some g.errMsg := by
  by_cases hp : st.pages = []
  · rw [processBatch_nil_eq n l st batch h0 hp]
    exact fold_rows_bad n batch g _ ⟨h0, by simp,
      (by decide : (0 : ℤ) ≤ margin), (by decide : (0 : ℤ) ≤ margin + 10)⟩ hfind
  · rw [processBatch_cons_eq n l st batch h0 hp]
    exact fold_rows_bad n batch g _ ⟨h0, by simp,
      (by decide : (0 : ℤ) ≤ margin), (by decide : (0 : ℤ) ≤ margin + 10)⟩ hfind

theorem err_chunksFold_good (n : ℕ → String) (l : String) (files : List ImgFile) :
    ∀ st : PdfState, st.err.isSome = false → (∀ f ∈ files, f.decode.isSome) →
      ((chunks2 files).foldl (processBatch n l) st).err.isSome = false := by
  induction files using chunks2.induct with
  | case1 =>
    intro st h0 _
    simpa [chunks2] using h0
  | case2 a =>
    intro st h0 hall
    simp only [chunks2, List.foldl_cons, List.foldl_nil]
    exact (good_processBatch n l st [a] h0 hall).1
  | case3 a b rest ih =>
    intro st h0 hall
    simp only [chunks2, List.foldl_cons]
    refine ih _ (good_processBatch n l st [a, b] h0 ?_).1
      (fun f hf => hall f (by simp [hf]))
    intro f hf
    rcases (by simpa using hf : f = a ∨ f = b) with rfl | rfl
    · exact hall f (by simp)
    · exact hall f (by simp)

theorem err_chunksFold_bad (n : ℕ → String) (l : String) (files : List ImgFile)
    (g : ImgFile) :
    ∀ st : PdfState, st.err.isSome = false →
      files.find? (fun f => f.decode.isNone) = some g →
      ((chunks2 files).foldl (processBatch n l) st).err = some g.errMsg := by
  induction files using chunks2.induct with
  | case1 =>
    intro st _ hfind
    simp at hfind
  | case2 a =>
    intro st h0 hfind
    simp only [chunks2, List.foldl_cons, List.foldl_nil]
    exact err_processBatch_bad n l st [a] g h0 hfind
  | case3 a b rest ih =>
    intro st h0 hfind
    simp only [chunks2, List.foldl_cons]
    rcases ha : a.decode with _ | pa
    · rw [List.find?_cons_of_pos _ (by simp [ha])] at hfind
      injection hfind with hfind
      subst hfind
      have herr := err_processBatch_bad n l st [a, b] a h0
        (by rw [List.find?_cons_of_pos _ (by simp [ha])])
      rw [foldl_frozen _ (fun s x => processBatch_frozen n l s x) _
        (by simp [herr]) (chunks2 rest)]
      exact herr
    · rw [List.find?_cons_of_neg _ (by simp [ha])] at hfind
      rcases hb : b.decode with _ | pb
      · rw [List.find?_cons_of_pos _ (by simp [hb])] at hfind
        injection hfind with hfind
        subst hfind
        have herr := err_processBatch_bad n l st [a, b] b h0
          (by rw [List.find?_cons_of_neg _ (by simp [ha]),
                  List.find?_cons_of_pos _ (by simp [hb])])
        rw [foldl_frozen _ (fun s x => processBatch_frozen n l s x) _
          (by simp [herr]) (chunks2 rest)]
        exact herr
      · rw [List.find?_cons_of_neg _ (by simp [hb])] at hfind
        refine ih _ (good_processBatch n l st [a, b] h0 ?_).1 hfind
        intro f hf
        rcases (by simpa using hf : f = a ∨ f = b) with rfl | rfl
        · simp [ha]
        · simp [hb]

theorem generate_err_none (n : ℕ → String) (files : List ImgFile) (label : String)
    (hall : ∀ f ∈ files, f.decode.isSome) :
    (generate_pdf n files label).err.isSome = false :=
  err_chunksFold_good n label files initState rfl hall

theorem generate_err_bad (n : ℕ → String) (files : List ImgFile) (label : String)
    (g : ImgFile) (hfind : firstBad files = some g) :
    (generate_pdf n files label).err = some g.errMsg :=
  err_chunksFold_bad n label files g initState rfl hfind

/-- C7: if any uploaded image cannot be decoded, the whole build aborts with
the decoding exception: the driver shows a single `st.error` message carrying
the underlying error text (for the first undecodable file), and no download
is offered (the outcome is the error outcome, not the download outcome). -/
theorem C7_decode_failure_aborts (names : ℕ → String) (files : List ImgFile)
    (label : String) (g : ImgFile) (hg : g ∈ files) (hbad : g.decode = none) :
    ∃ b ∈ files, b.decode = none ∧ ∃ cr rm,
      run_app names files label =
        .errorMsg ("An error occurred: " ++ b.errMsg) cr rm := by
  have hex : (files.find? (fun f => f.decode.isNone)).isSome = true :=
    List.find?_isSome.2 ⟨g, hg, by simp [hbad]⟩
  obtain ⟨b, hb⟩ := Option.isSome_iff_exists.1 hex
  have hbmem : b ∈ files := List.mem_of_find?_eq_some hb
  have hbnone : b.decode = none := by
    simpa using List.find?_some hb
  refine ⟨b, hbmem, hbnone, (generate_pdf names files label).tmpCreated,
    (generate_pdf names files label).tmpRemoved, ?_⟩
  have herr := generate_err_bad names files label b hb
  have hne : files ≠ [] := by
    rintro rfl
    simp at hg
  unfold run_app
  rw [if_neg hne]
  simp [herr]

/-- Witness for C7 at a concrete undecodable upload. -/
theorem C7_decode_failure_aborts_witness :
    ∃ b ∈ [badSample], b.decode = none ∧ ∃ cr rm,
      run_app tnames [badSample] "pic" =
        .errorMsg ("An error occurred: " ++ b.errMsg) cr rm :=
  C7_decode_failure_aborts tnames [badSample] "pic" badSample (by decide) (by decide)

/-! ### The drawing invariant: header labels and image placement -/

theorem cellOK_of_txt (label : String) (xR yR x y w h : ℤ) (bo : Bool)
    (fs : String) (fz : ℤ) (al : String) :
    cellOK label (.cell xR yR x y w h label bo fs fz al) := by
  intro xR2 yR2 x2 y2 t bo2 fs2 fz2 al2 hcon
  injection hcon with h1 h2 h3 h4 h5 h6 h7 h8 h9 h10 h11
  exact h7.symm

theorem cellOK_ne (label : String) (xR yR x y w h : ℤ) (t : String) (bo : Bool)
    (fs : String) (fz : ℤ) (al : String)
    (hne : ¬(w = col_width_img ∧ h = 10)) :
    cellOK label (.cell xR yR x y w h t bo fs fz al) := by
  intro xR2 yR2 x2 y2 t2 bo2 fs2 fz2 al2 hcon
  injection hcon with h1 h2 h3 h4 h5 h6 h7 h8 h9 h10 h11
  exact absurd ⟨h5, h6⟩ hne

theorem cellOK_rect (label : String) (x y w h : ℤ) :
    cellOK label (.rect x y w h) := by
  intro xR yR x2 y2 t bo fs fz al hcon
  exact Op.noConfusion hcon

theorem cellOK_image (label nm : String) (i : PILImage) (x y w h : ℤ) :
    cellOK label (.image nm i x y w h) := by
  intro xR yR x2 y2 t bo fs fz al hcon
  exact Op.noConfusion hcon

theorem imageOK_cell (J : List Op) (xR yR x y w h : ℤ) (t : String) (bo : Bool)
    (fs : String) (fz : ℤ) (al : String) :
    imageOK J (.cell xR yR x y w h t bo fs fz al) := by
  intro nm i x2 y2 w2 h2 hcon
  exact Op.noConfusion hcon

theorem imageOK_rect (J : List Op) (x y w h : ℤ) : imageOK J (.rect x y w h) := by
  intro nm i x2 y2 w2 h2 hcon
  exact Op.noConfusion hcon

theorem imageOK_mono {J J2 : List Op} (hsub : ∀ a ∈ J, a ∈ J2) {op : Op}
    (himg : imageOK J op) : imageOK J2 op := by
  intro nm i x y w h hcon
  obtain ⟨h1, h2, h3, h4⟩ := himg nm i x y w h hcon
  exact ⟨h1, h2, h3, hsub _ h4⟩

theorem imageOK_self (J : List Op) (nm : String) (pil : PILImage) (x y : ℤ)
    (hmem : Op.rect x y col_width_img row_height ∈ J) :
    imageOK J (.image nm (convertRGB pil) (x + 2) (y + 2)
      (col_width_img - 4) (row_height - 4)) := by
  intro nm2 i2 x2 y2 w2 h2 hcon
  injection hcon with h1 h2 h3 h4 h5 h6
  subst h1
  subst h2
  subst h3
  subst h4
  subst h5
  subst h6
  exact ⟨rfl, rfl, rfl, by simpa using hmem⟩

theorem InvP_of_flatten_eq {label : String} {st st2 : PdfState}
    (h : st2.pages.flatten = st.pages.flatten) (hI : InvP label st) :
    InvP label st2 := by
  intro op hop
  rw [h] at hop
  refine ⟨(hI op hop).1, imageOK_mono ?_ (hI op hop).2⟩
  intro a ha
  rw [h]
  exact ha

theorem InvP_extend (ex : List Op) {label : String} {st st2 : PdfState}
    (hJ : st2.pages.flatten = st.pages.flatten ++ ex) (hI : InvP label st)
    (hex : ∀ op ∈ ex, cellOK label op ∧ imageOK st2.pages.flatten op) :
    InvP label st2 := by
  intro op hop
  rw [hJ] at hop
  rcases List.mem_append.1 hop with hold | hnew
  · refine ⟨(hI op hold).1, imageOK_mono ?_ (hI op hold).2⟩
    intro a ha
    rw [hJ]
    exact List.mem_append_left _ ha
  · exact hex op hnew

theorem flatten_appendLast3 (P : List (List Op)) (hp : P ≠ []) (a b c : Op) :
    (appendLast (appendLast (appendLast P a) b) c).flatten =
      P.flatten ++ [a, b, c] := by
  rw [flatten_appendLast c (by simp [appendLast_eq_nil, hp]),
      flatten_appendLast b (by simp [appendLast_eq_nil, hp]),
      flatten_appendLast a hp]
  simp

theorem InvP_processRow (n : ℕ → String) (st : PdfState) (f : ImgFile)
    {label : String} (hg : good st) (hI : InvP label st) :
    InvP label (processRow n st f) := by
  obtain ⟨h0, hp, hx, hy⟩ := hg
  rcases hdec : f.decode with _ | pil
  · rw [processRow_bad n st f h0 hp hdec]
    refine InvP_extend [.rect st.x st.y col_width_img row_height]
      (flatten_appendLast _ hp) hI ?_
    intro op hop
    have hop2 := List.mem_singleton.1 hop
    subst hop2
    exact ⟨cellOK_rect _ _ _ _ _, imageOK_rect _ _ _ _ _⟩
  · by_cases hbr : st.y + row_height > page_break_trigger
    · rw [processRow_good_br n st f pil h0 hp hdec hx hy hbr]
      refine InvP_extend
        [.rect st.x st.y col_width_img row_height,
         .image (n st.nextTmp ++ ".jpg") (convertRGB pil) (st.x + 2) (st.y + 2)
           (col_width_img - 4) (row_height - 4),
         .cell margin (pageH + (-15)) margin (pageH + (-15))
           (pageW - margin - margin) 10 ("Page " ++ toString st.pages.length)
           false "I" 8 "C",
         .cell (st.x + col_width_img) st.y (st.x + col_width_img) margin
           col_width_other row_height "" true st.fontStyle st.fontSize ""]
        ?_ hI ?_
      · show (appendLast (appendLast (appendLast st.pages _) _) _
          ++ [[_]]).flatten = _
        rw [List.flatten_append, flatten_appendLast3 st.pages hp]
        simp
      · intro op hop
        simp only [List.mem_cons, List.not_mem_nil, or_false] at hop
        rcases hop with rfl | rfl | rfl | rfl
        · exact ⟨cellOK_rect _ _ _ _ _, imageOK_rect _ _ _ _ _⟩
        · refine ⟨cellOK_image _ _ _ _ _ _ _, imageOK_self _ _ pil st.x st.y ?_⟩
          rw [List.flatten_append, flatten_appendLast3 st.pages hp]
          simp
        · exact ⟨cellOK_ne _ _ _ _ _ _ _ _ _ _ _ _ (by decide),
            imageOK_cell _ _ _ _ _ _ _ _ _ _ _ _⟩
        · exact ⟨cellOK_ne _ _ _ _ _ _ _ _ _ _ _ _ (by decide),
            imageOK_cell _ _ _ _ _ _ _ _ _ _ _ _⟩
    · rw [processRow_good_nobr n st f pil h0 hp hdec hx hy hbr]
      refine InvP_extend
        [.rect st.x st.y col_width_img row_height,
         .image (n st.nextTmp ++ ".jpg") (convertRGB pil) (st.x + 2) (st.y + 2)
           (col_width_img - 4) (row_height - 4),
         .cell (st.x + col_width_img) st.y (st.x + col_width_img) st.y
           col_width_other row_height "" true st.fontStyle st.fontSize ""]
        (flatten_appendLast3 st.pages hp _ _ _) hI ?_
      intro op hop
      simp only [List.mem_cons, List.not_mem_nil, or_false] at hop
      rcases hop with rfl | rfl | rfl
      · exact ⟨cellOK_rect _ _ _ _ _, imageOK_rect _ _ _ _ _⟩
      · refine ⟨cellOK_image _ _ _ _ _ _ _, imageOK_self _ _ pil st.x st.y ?_⟩
        rw [flatten_appendLast3 st.pages hp]
        simp
      · exact ⟨cellOK_ne _ _ _ _ _ _ _ _ _ _ _ _ (by decide),
          imageOK_cell _ _ _ _ _ _ _ _ _ _ _ _⟩

theorem InvP_processBatch (n : ℕ → String) (label : String) (st : PdfState)
    (batch : List ImgFile) (h0 : st.err.isSome = false) (hI : InvP label st) :
    InvP label (processBatch n label st batch) := by
  have hfold : ∀ (b : List ImgFile) (s : PdfState), good s → InvP label s →
      InvP label (b.foldl (processRow n) s) := by
    intro b
    induction b with
    | nil => exact fun s _ h => h
    | cons a t ih =>
      intro s hgs hIs
      rw [List.foldl_cons]
      rcases ha : a.decode with _ | pil
      · have herr : (processRow n s a).err = some a.errMsg :=
          err_processRow_bad n s a hgs ha
        rw [foldl_frozen _ (fun s2 x => processRow_frozen n s2 x) _
          (by simp [herr]) t]
        exact InvP_processRow n s a hgs hIs
      · exact ih _ (good_processRow n s a pil hgs ha) (InvP_processRow n s a hgs hIs)
  by_cases hp : st.pages = []
  · rw [processBatch_nil_eq n label st batch h0 hp]
    refine hfold batch _ ⟨h0, by simp,
      (by decide : (0 : ℤ) ≤ margin), (by decide : (0 : ℤ) ≤ margin + 10)⟩ ?_
    refine InvP_extend
      [.cell margin margin margin margin col_width_img 10 label true "B" 12 "C",
       .cell (margin + col_width_img) margin (margin + col_width_img) margin
         col_width_other 10 "Notes / Data" true "B" 12 "L"]
      (by simp [hp]) hI ?_
    intro op hop
    simp only [List.mem_cons, List.not_mem_nil, or_false] at hop
    rcases hop with rfl | rfl
    · exact ⟨cellOK_of_txt _ _ _ _ _ _ _ _ _ _ _,
        imageOK_cell _ _ _ _ _ _ _ _ _ _ _ _⟩
    · exact ⟨cellOK_ne _ _ _ _ _ _ _ _ _ _ _ _ (by decide),
        imageOK_cell _ _ _ _ _ _ _ _ _ _ _ _⟩
  · rw [processBatch_cons_eq n label st batch h0 hp]
    refine hfold batch _ ⟨h0, by simp,
      (by decide : (0 : ℤ) ≤ margin), (by decide : (0 : ℤ) ≤ margin + 10)⟩ ?_
    refine InvP_extend
      [.cell margin (pageH + (-15)) margin (pageH + (-15))
         (pageW - margin - margin) 10 ("Page " ++ toString st.pages.length)
         false "I" 8 "C",
       .cell margin margin margin margin col_width_img 10 label true "B" 12 "C",
       .cell (margin + col_width_img) margin (margin + col_width_img) margin
         col_width_other 10 "Notes / Data" true "B" 12 "L"]
      ?_ hI ?_
    · show (appendLast st.pages _ ++ [[_, _]]).flatten = _
      rw [List.flatten_append, flatten_appendLast _ hp]
      simp
    · intro op hop
      simp only [List.mem_cons, List.not_mem_nil, or_false] at hop
      rcases hop with rfl | rfl | rfl
      · exact ⟨cellOK_ne _ _ _ _ _ _ _ _ _ _ _ _ (by decide),
          imageOK_cell _ _ _ _ _ _ _ _ _ _ _ _⟩
      · exact ⟨cellOK_of_txt _ _ _ _ _ _ _ _ _ _ _,
          imageOK_cell _ _ _ _ _ _ _ _ _ _ _ _⟩
      · exact ⟨cellOK_ne _ _ _ _ _ _ _ _ _ _ _ _ (by decide),
          imageOK_cell _ _ _ _ _ _ _ _ _ _ _ _⟩

theorem InvP_generate (n : ℕ → String) (files : List ImgFile) (label : String) :
    InvP label (generate_pdf n files label) := by
  have hstep : ∀ (cs : List (List ImgFile)) (s : PdfState), InvP label s →
      InvP label (cs.foldl (processBatch n label) s) := by
    intro cs
    induction cs with
    | nil => exact fun s h => h
    | cons c t ih =>
      intro s hIs
      rw [List.foldl_cons]
      by_cases h0 : s.err.isSome
      · rw [processBatch_frozen n label s c h0]
        exact ih s hIs
      · exact ih _ (InvP_processBatch n label s c (by simpa using h0) hIs)
  refine hstep (chunks2 files) initState ?_
  intro op hop
  simp [initState] at hop

/-- C3: every header cell of the image column (the cells of width
`col_width_img` and height 10 — only the per-page header row emits such a
cell) carries the caller-supplied label verbatim, whatever the label (empty
or with special characters, since the label is universally quantified), and
on a non-empty upload the very first operation of the first page is that
header cell. -/
theorem C3_header_label_verbatim (names : ℕ → String) (files : List ImgFile)
    (label : String) (hne : files ≠ []) :
    (∀ xR yR x y t bo fs fz al,
       Op.cell xR yR x y col_width_img 10 t bo fs fz al ∈
         (generate_pdf names files label).pages.flatten → t = label) ∧
    ((generate_pdf names files label).pages.getD 0 []).head? =
      some (.cell margin margin margin margin col_width_img 10 label
        true "B" 12 "C") := by
  constructor
  · intro xR yR x y t bo fs fz al hmem
    exact (InvP_generate names files label _ hmem).1 xR yR x y t bo fs fz al rfl
  · have hP0 : ∀ (batch : List ImgFile) (more : List (List ImgFile)),
        ((more.foldl (processBatch names label)
          (processBatch names label initState batch)).pages.getD 0 []).head? =
        some (.cell margin margin margin margin col_width_img 10 label
          true "B" 12 "C") := by
      intro batch more
      rw [processBatch_nil_eq names label initState batch rfl rfl]
      exact Eq.trans
        (growsTo_head
          ((pageGrows_trans
            (pageGrows_foldl _ (pageGrows_processRow names) batch _)
            (pageGrows_foldl _ (fun s c => pageGrows_processBatch names label s c)
              more _)) 0)
          (by simp))
        (by simp)
    cases files with
    | nil => exact absurd rfl hne
    | cons f rest =>
      cases rest with
      | nil => exact hP0 [f] []
      | cons g t => exact hP0 [f, g] (chunks2 t)

/-- Witness for C3 at a concrete run. -/
theorem C3_header_label_verbatim_witness :
    ([jpgSample] : List ImgFile) ≠ [] ∧
    ((∀ xR yR x y t bo fs fz al,
       Op.cell xR yR x y col_width_img 10 t bo fs fz al ∈
         (generate_pdf tnames [jpgSample] "pic").pages.flatten → t = "pic") ∧
    ((generate_pdf tnames [jpgSample] "pic").pages.getD 0 []).head? =
      some (.cell margin margin margin margin col_width_img 10 "pic"
        true "B" 12 "C")) :=
  ⟨by decide, C3_header_label_verbatim tnames [jpgSample] "pic" (by decide)⟩

/-- C4: every image placed in the document is stretched to exactly
`(col_width_img - 4) x (row_height - 4)` — independent of the image's own
pixel dimensions, which the layout never consults — and sits 2mm inside its
row's `col_width_img x row_height` border rectangle, which is drawn at
`(x - 2, y - 2)` for an image at `(x, y)` (so the inset is 2mm on all four
sides: 2 + (80-4) + 2 = 80 and 2 + (90-4) + 2 = 90). -/
theorem C4_image_inset_stretch (names : ℕ → String) (files : List ImgFile)
    (label : String) (nm : String) (img : PILImage) (x y w h : ℤ)
    (hmem : Op.image nm img x y w h ∈
      (generate_pdf names files label).pages.flatten) :
    w = col_width_img - 4 ∧ h = row_height - 4 ∧
      Op.rect (x - 2) (y - 2) col_width_img row_height ∈
        (generate_pdf names files label).pages.flatten := by
  obtain ⟨h1, h2, h3, h4⟩ :=
    (InvP_generate names files label _ hmem).2 nm img x y w h rfl
  exact ⟨h1, h2, h4⟩

/-- Witness for C4 at a concrete run (a 320x200 upload is stretched to
76x86 at (12, 22), inside the border rectangle at (10, 20)). -/
theorem C4_image_inset_stretch_witness :
    Op.image "tmp0.jpg" ⟨320, 200, false⟩ 12 22 76 86 ∈
      (generate_pdf tnames [pngAlphaSample] "pic").pages.flatten ∧
    ((76 : ℤ) = col_width_img - 4 ∧ (86 : ℤ) = row_height - 4 ∧
      Op.rect (12 - 2) (22 - 2) col_width_img row_height ∈
        (generate_pdf tnames [pngAlphaSample] "pic").pages.flatten) :=
  ⟨by decide, C4_image_inset_stretch tnames [pngAlphaSample] "pic"
    "tmp0.jpg" ⟨320, 200, false⟩ 12 22 76 86 (by decide)⟩

/-- C5: every image embedded in the document has been flattened by
`convert('RGB')` before embedding: no placed image carries an alpha
channel, whatever the uploaded images were (in particular PNGs with
transparency). -/
theorem C5_image_flattened (names : ℕ → String) (files : List ImgFile)
    (label : String) (nm : String) (img : PILImage) (x y w h : ℤ)
    (hmem : Op.image nm img x y w h ∈
      (generate_pdf names files label).pages.flatten) :
    img.hasAlpha = false :=
  ((InvP_generate names files label _ hmem).2 nm img x y w h rfl).2.2.1

/-- Witness for C5: the image embedded for a transparent PNG upload has no
alpha channel. -/
theorem C5_image_flattened_witness :
    Op.image "tmp0.jpg" ⟨320, 200, false⟩ 12 22 76 86 ∈
      (generate_pdf tnames [pngAlphaSample] "pic").pages.flatten ∧
    (⟨320, 200, false⟩ : PILImage).hasAlpha = false :=
  ⟨by decide, C5_image_flattened tnames [pngAlphaSample] "pic"
    "tmp0.jpg" ⟨320, 200, false⟩ 12 22 76 86 (by decide)⟩

/-! ### Determinism of the geometry (the staging names are the only
nondeterminism) -/

theorem map_appendLast (F : Op → Op) (ps : List (List Op)) (op : Op) :
    (appendLast ps op).map (List.map F) = appendLast (ps.map (List.map F)) (F op) := by
  induction ps with
  | nil => rfl
  | cons p r ih =>
    cases r with
    | nil => simp [appendLast]
    | cons q t => simpa [appendLast] using ih

theorem scrub_eq_components {st1 st2 : PdfState} (h : scrub st1 = scrub st2) :
    st1.pages.map (List.map scrubOp) = st2.pages.map (List.map scrubOp) ∧
    st1.x = st2.x ∧ st1.y = st2.y ∧ st1.lasth = st2.lasth ∧
    st1.fontStyle = st2.fontStyle ∧ st1.fontSize = st2.fontSize ∧
    st1.err = st2.err := by
  have h1 : (scrub st1).pages = (scrub st2).pages := congrArg PdfState.pages h
  have h2 : (scrub st1).x = (scrub st2).x := congrArg PdfState.x h
  have h3 : (scrub st1).y = (scrub st2).y := congrArg PdfState.y h
  have h4 : (scrub st1).lasth = (scrub st2).lasth := congrArg PdfState.lasth h
  have h5 : (scrub st1).fontStyle = (scrub st2).fontStyle :=
    congrArg PdfState.fontStyle h
  have h6 : (scrub st1).fontSize = (scrub st2).fontSize :=
    congrArg PdfState.fontSize h
  have h7 : (scrub st1).err = (scrub st2).err := congrArg PdfState.err h
  exact ⟨h1, h2, h3, h4, h5, h6, h7⟩

theorem scrub_eq_build {st1 st2 : PdfState}
    (hpg : st1.pages.map (List.map scrubOp) = st2.pages.map (List.map scrubOp))
    (hx : st1.x = st2.x) (hy : st1.y = st2.y) (hl : st1.lasth = st2.lasth)
    (hfs : st1.fontStyle = st2.fontStyle) (hfz : st1.fontSize = st2.fontSize)
    (herr : st1.err = st2.err) : scrub st1 = scrub st2 := by
  simp only [scrub, PdfState.mk.injEq]
  exact ⟨hpg, hx, hy, hl, hfs, hfz, trivial, trivial, trivial, herr⟩

theorem length_eq_of_scrub {st1 st2 : PdfState} (h : scrub st1 = scrub st2) :
    st1.pages.length = st2.pages.length := by
  have h2 : (scrub st1).pages = (scrub st2).pages := congrArg PdfState.pages h
  have h3 := congrArg List.length h2
  simpa [scrub] using h3

theorem scrub_processRow (n1 n2 : ℕ → String) (st1 st2 : PdfState) (f : ImgFile)
    (h : scrub st1 = scrub st2) (hcase : st1.err.isSome = true ∨ good st1) :
    scrub (processRow n1 st1 f) = scrub (processRow n2 st2 f) ∧
      ((processRow n1 st1 f).err.isSome = true ∨ good (processRow n1 st1 f)) := by
  obtain ⟨hpg, hx, hy, hl, hfs, hfz, herr⟩ := scrub_eq_components h
  rcases hcase with h0 | hgood
  · rw [processRow_frozen n1 st1 f h0,
        processRow_frozen n2 st2 f (by rw [← herr]; exact h0)]
    exact ⟨h, .inl h0⟩
  · obtain ⟨h0, hp, hxx, hyy⟩ := hgood
    have h0' : st2.err.isSome = false := by rw [← herr]; exact h0
    have hp' : st2.pages ≠ [] := by
      intro hnil
      apply hp
      rw [hnil] at hpg
      simpa using hpg
    have hlen := length_eq_of_scrub h
    rcases hdec : f.decode with _ | pil
    · rw [processRow_bad n1 st1 f h0 hp hdec, processRow_bad n2 st2 f h0' hp' hdec]
      refine ⟨scrub_eq_build ?_ hx hy hl hfs hfz rfl, .inl (by simp)⟩
      simp only [map_appendLast, scrubOp]
      rw [hpg, hx, hy]
    · have hpost : good (processRow n1 st1 f) :=
        good_processRow n1 st1 f pil ⟨h0, hp, hxx, hyy⟩ hdec
      refine ⟨?_, .inr hpost⟩
      by_cases hbr : st1.y + row_height > page_break_trigger
      · rw [processRow_good_br n1 st1 f pil h0 hp hdec hxx hyy hbr,
            processRow_good_br n2 st2 f pil h0' hp' hdec (hx ▸ hxx) (hy ▸ hyy)
              (hy ▸ hbr)]
        refine scrub_eq_build ?_ hx (by rw [hy]) rfl hfs hfz herr
        simp only [List.map_append, map_appendLast, scrubOp, List.map_cons,
          List.map_nil]
        rw [hpg, hx, hy, hfs, hfz, hlen]
      · rw [processRow_good_nobr n1 st1 f pil h0 hp hdec hxx hyy hbr,
            processRow_good_nobr n2 st2 f pil h0' hp' hdec (hx ▸ hxx) (hy ▸ hyy)
              (hy ▸ hbr)]
        refine scrub_eq_build ?_ hx (by rw [hy]) rfl hfs hfz herr
        simp only [map_appendLast, scrubOp]
        rw [hpg, hx, hy, hfs, hfz]

theorem scrub_fold_rows (n1 n2 : ℕ → String) (batch : List ImgFile) :
    ∀ st1 st2 : PdfState, scrub st1 = scrub st2 →
      (st1.err.isSome = true ∨ good st1) →
      scrub (batch.foldl (processRow n1) st1) =
        scrub (batch.foldl (processRow n2) st2) := by
  induction batch with
  | nil => exact fun st1 st2 h _ => h
  | cons a t ih =>
    intro st1 st2 h hcase
    rw [List.foldl_cons, List.foldl_cons]
    obtain ⟨h2, hcase2⟩ := scrub_processRow n1 n2 st1 st2 a h hcase
    exact ih _ _ h2 hcase2

theorem scrub_processBatch (n1 n2 : ℕ → String) (l : String)
    (st1 st2 : PdfState) (batch : List ImgFile) (h : scrub st1 = scrub st2) :
    scrub (processBatch n1 l st1 batch) = scrub (processBatch n2 l st2 batch) := by
  obtain ⟨hpg, hx, hy, hl, hfs, hfz, herr⟩ := scrub_eq_components h
  by_cases h0 : st1.err.isSome
  · rw [processBatch_frozen n1 l st1 batch h0,
        processBatch_frozen n2 l st2 batch (by rw [← herr]; exact h0)]
    exact h
  · have h0'' : st1.err.isSome = false := by simpa using h0
    have h0' : st2.err.isSome = false := by rw [← herr]; exact h0''
    have hlen := length_eq_of_scrub h
    by_cases hp : st1.pages = []
    · have hp' : st2.pages = [] := by
        rw [hp] at hpg
        simpa using hpg.symm
      rw [processBatch_nil_eq n1 l st1 batch h0'' hp,
          processBatch_nil_eq n2 l st2 batch h0' hp']
      refine scrub_fold_rows n1 n2 batch _ _ ?_ (.inr ⟨h0'', by simp,
        (by decide : (0 : ℤ) ≤ margin), (by decide : (0 : ℤ) ≤ margin + 10)⟩)
      exact scrub_eq_build (by simp [scrubOp]) rfl rfl rfl rfl rfl herr
    · have hp' : st2.pages ≠ [] := by
        intro hnil
        apply hp
        rw [hnil] at hpg
        simpa using hpg
      rw [processBatch_cons_eq n1 l st1 batch h0'' hp,
          processBatch_cons_eq n2 l st2 batch h0' hp']
      refine scrub_fold_rows n1 n2 batch _ _ ?_ (.inr ⟨h0'', by simp,
        (by decide : (0 : ℤ) ≤ margin), (by decide : (0 : ℤ) ≤ margin + 10)⟩)
      refine scrub_eq_build ?_ rfl rfl rfl rfl rfl herr
      simp only [List.map_append, map_appendLast, scrubOp, List.map_cons,
        List.map_nil]
      rw [hpg, hlen]

theorem scrub_chunksFold (n1 n2 : ℕ → String) (l : String)
    (cs : List (List ImgFile)) :
    ∀ st1 st2 : PdfState, scrub st1 = scrub st2 →
      scrub (cs.foldl (processBatch n1 l) st1) =
        scrub (cs.foldl (processBatch n2 l) st2) := by
  induction cs with
  | nil => exact fun st1 st2 h => h
  | cons c t ih =>
    intro st1 st2 h
    rw [List.foldl_cons, List.foldl_cons]
    exact ih _ _ (scrub_processBatch n1 n2 l st1 st2 c h)

theorem scrub_footer (st1 st2 : PdfState) (h : scrub st1 = scrub st2) :
    scrub (footer st1) = scrub (footer st2) := by
  obtain ⟨hpg, hx, hy, hl, hfs, hfz, herr⟩ := scrub_eq_components h
  by_cases h0 : st1.err.isSome
  · rw [footer_frozen st1 h0, footer_frozen st2 (by rw [← herr]; exact h0)]
    exact h
  · have h0'' : st1.err.isSome = false := by simpa using h0
    have h0' : st2.err.isSome = false := by rw [← herr]; exact h0''
    have hlen := length_eq_of_scrub h
    by_cases hp : st1.pages = []
    · have hp' : st2.pages = [] := by
        rw [hp] at hpg
        simpa using hpg.symm
      rw [footer_nopage st1 h0'' hp, footer_nopage st2 h0' hp']
      exact scrub_eq_build (by rw [hpg]) rfl rfl hl rfl rfl rfl
    · have hp' : st2.pages ≠ [] := by
        intro hnil
        apply hp
        rw [hnil] at hpg
        simpa using hpg
      rw [footer_eq st1 h0'' hp, footer_eq st2 h0' hp']
      refine scrub_eq_build ?_ rfl rfl rfl rfl rfl herr
      simp only [map_appendLast, scrubOp]
      rw [hpg, hlen]

theorem scrub_add_page (st1 st2 : PdfState) (h : scrub st1 = scrub st2) :
    scrub (add_page st1) = scrub (add_page st2) := by
  obtain ⟨hpg, hx, hy, hl, hfs, hfz, herr⟩ := scrub_eq_components h
  by_cases h0 : st1.err.isSome
  · rw [add_page_frozen st1 h0, add_page_frozen st2 (by rw [← herr]; exact h0)]
    exact h
  · have h0'' : st1.err.isSome = false := by simpa using h0
    have h0' : st2.err.isSome = false := by rw [← herr]; exact h0''
    by_cases hp : st1.pages = []
    · have hp' : st2.pages = [] := by
        rw [hp] at hpg
        simpa using hpg.symm
      rw [add_page_nil st1 h0'' hp, add_page_nil st2 h0' hp']
      refine scrub_eq_build ?_ rfl rfl hl hfs hfz herr
      simp only [List.map_append]
      rw [hpg]
    · have hp' : st2.pages ≠ [] := by
        intro hnil
        apply hp
        rw [hnil] at hpg
        simpa using hpg
      rw [add_page_eq st1 h0'' hp, add_page_eq st2 h0' hp']
      have hfoot := scrub_footer st1 st2 h
      obtain ⟨hpg2, hx2, hy2, hl2, hfs2, hfz2, herr2⟩ := scrub_eq_components hfoot
      refine scrub_eq_build ?_ rfl rfl hl2 hfs hfz herr2
      simp only [List.map_append]
      rw [hpg2]

theorem scrub_output (st1 st2 : PdfState) (h : scrub st1 = scrub st2) :
    scrub (output st1) = scrub (output st2) := by
  obtain ⟨hpg, hx, hy, hl, hfs, hfz, herr⟩ := scrub_eq_components h
  unfold output
  by_cases h0 : st1.err.isSome
  · rw [if_pos h0, if_pos (show st2.err.isSome = true by rw [← herr]; exact h0)]
    exact h
  · rw [if_neg h0, if_neg (show ¬st2.err.isSome = true by rw [← herr]; exact h0)]
    by_cases hp : st1.pages = []
    · have hp' : st2.pages = [] := by
        rw [hp] at hpg
        simpa using hpg.symm
      rw [if_pos hp, if_pos hp']
      exact scrub_footer _ _ (scrub_add_page st1 st2 h)
    · have hp' : st2.pages ≠ [] := by
        intro hnil
        apply hp
        rw [hnil] at hpg
        simpa using hpg
      rw [if_neg hp, if_neg hp']
      exact scrub_footer st1 st2 h

/-- C9: the staging temporary-file names are the only nondeterminism of the
pipeline: two invocations of `generate_pdf` on identical uploads and an
identical label — under any two temporary-name supplies — yield the same
geometry (the same pages of draw operations, once the staging name recorded
in each image placement is erased), in particular the same page count; and
the closed artifacts (after `output`) agree likewise. -/
theorem C9_geometry_deterministic (n1 n2 : ℕ → String) (files : List ImgFile)
    (label : String) :
    scrub (generate_pdf n1 files label) = scrub (generate_pdf n2 files label) ∧
    (generate_pdf n1 files label).pages.length =
      (generate_pdf n2 files label).pages.length ∧
    scrub (output (generate_pdf n1 files label)) =
      scrub (output (generate_pdf n2 files label)) := by
  have h := scrub_chunksFold n1 n2 label (chunks2 files) initState initState rfl
  exact ⟨h, length_eq_of_scrub h, scrub_output _ _ h⟩

/-! ### The first batch of two images, computed in full -/

theorem firstBatch_pair (n : ℕ → String) (l : String) (f0 f1 : ImgFile)
    (i0 i1 : PILImage) (h0 : f0.decode = some i0) (h1 : f1.decode = some i1) :
    processBatch n l initState [f0, f1] =
      { pages := [[.cell margin margin margin margin col_width_img 10 l true "B" 12 "C",
          .cell (margin + col_width_img) margin (margin + col_width_img) margin
            col_width_other 10 "Notes / Data" true "B" 12 "L",
          .rect margin (margin + 10) col_width_img row_height,
          .image (n 0 ++ ".jpg") (convertRGB i0) (margin + 2) (margin + 10 + 2)
            (col_width_img - 4) (row_height - 4),
          .cell (margin + col_width_img) (margin + 10) (margin + col_width_img)
            (margin + 10) col_width_other row_height "" true "B" 12 "",
          .rect margin (margin + 10 + row_height) col_width_img row_height,
          .image (n 1 ++ ".jpg") (convertRGB i1) (margin + 2)
            (margin + 10 + row_height + 2) (col_width_img - 4) (row_height - 4),
          .cell margin (pageH + (-15)) margin (pageH + (-15))
            (pageW - margin - margin) 10 ("Page " ++ toString (1 : ℕ))
            false "I" 8 "C"],
         [.cell (margin + col_width_img) (margin + 10 + row_height)
            (margin + col_width_img) margin col_width_other row_height ""
            true "B" 12 ""]],
        x := margin, y := margin + 10 + row_height + row_height,
        lasth := row_height, fontStyle := "B", fontSize := 12, nextTmp := 2,
        tmpCreated := [n 0 ++ ".jpg", n 1 ++ ".jpg"],
        tmpRemoved := [n 0 ++ ".jpg", n 1 ++ ".jpg"], err := none } := by
  have F1 : ¬((margin : ℤ) + 10 > page_break_trigger) := by decide
  have F2 : ¬((margin : ℤ) + 10 + row_height > page_break_trigger) := by decide
  have F3 : (margin : ℤ) + 10 + row_height + row_height > page_break_trigger := by
    decide
  have F4 : (0 : ℤ) ≤ margin := by decide
  have F5 : (0 : ℤ) ≤ margin + 10 := by decide
  have F6 : (0 : ℤ) ≤ margin + col_width_img := by decide
  have F7 : (0 : ℤ) ≤ margin + 10 + row_height := by decide
  have F8 : (0 : ℤ) ≤ margin + 10 + row_height + row_height := by decide
  have F9 : ¬(col_width_img = (0 : ℤ)) := by decide
  have F10 : ¬(col_width_other = (0 : ℤ)) := by decide
  simp [processBatch, processRow, add_page, footer, set_xy, set_x, set_y,
    set_font, ln, cell, cellRaw, rect, image, initState, appendLast,
    h0, h1, F1, F2, F3, F4, F5, F6, F7, F8, F9, F10]

/-- C10: on a page holding two image rows, the header row occupies
10mm-20mm, row 0 occupies 20mm-110mm and row 1 occupies 110mm-200mm of the
210mm-high page (shown here by the emitted header cell and the two 90mm-high
image-cell border rectangles at y = 20 and y = 110); the second row
therefore ends at 110 + 90 = 200mm, below both the automatic page-break
trigger at `page_break_trigger = 210 - 20 = 190`mm (page height minus
fpdf's default 20mm bottom margin) and the footer baseline at
`footer_set_y = 210 - 15 = 195`mm.  Consequently the second row's 90mm-high
data cell — requested at y = 110 (its `yReq`) — is in fact displaced by the
automatic page break onto a new page at y = 10, which is where the fourth
conjunct finds it. -/
theorem C10_second_row_overflow (names : ℕ → String) (label : String)
    (f0 f1 : ImgFile) (rest : List ImgFile) (i0 i1 : PILImage)
    (h0 : f0.decode = some i0) (h1 : f1.decode = some i1) :
    Op.cell 10 10 10 10 80 10 label true "B" 12 "C" ∈
      (generate_pdf names (f0 :: f1 :: rest) label).pages.getD 0 [] ∧
    Op.rect 10 20 80 90 ∈
      (generate_pdf names (f0 :: f1 :: rest) label).pages.getD 0 [] ∧
    Op.rect 10 110 80 90 ∈
      (generate_pdf names (f0 :: f1 :: rest) label).pages.getD 0 [] ∧
    Op.cell 90 110 90 10 190 90 "" true "B" 12 "" ∈
      (generate_pdf names (f0 :: f1 :: rest) label).pages.getD 1 [] ∧
    page_break_trigger = pageH - b_margin ∧ b_margin = 20 ∧
    (110 : ℤ) + row_height > page_break_trigger ∧
    footer_set_y = pageH - 15 ∧ (110 : ℤ) + row_height > footer_set_y := by
  have hB := firstBatch_pair names label f0 f1 i0 i1 h0 h1
  have hEq : generate_pdf names (f0 :: f1 :: rest) label =
      (chunks2 rest).foldl (processBatch names label)
        (processBatch names label initState [f0, f1]) := rfl
  have hpg : pageGrows (processBatch names label initState [f0, f1])
      (generate_pdf names (f0 :: f1 :: rest) label) := by
    rw [hEq]
    exact pageGrows_foldl _ (fun s c => pageGrows_processBatch names label s c)
      (chunks2 rest) _
  rw [hB] at hpg
  refine ⟨growsTo_mem (hpg 0) ?_, growsTo_mem (hpg 0) ?_, growsTo_mem (hpg 0) ?_,
    growsTo_mem (hpg 1) ?_, rfl, rfl, by decide, rfl, by decide⟩
  · simp [margin, col_width_img]
  · simp [margin, col_width_img, row_height]
  · simp [margin, col_width_img, row_height]
  · simp [margin, col_width_img, col_width_other, row_height]

/-- Witness for C10 at two concrete decodable uploads. -/
theorem C10_second_row_overflow_witness :
    pngAlphaSample.decode = some ⟨320, 200, true⟩ ∧
    (Op.cell 10 10 10 10 80 10 "pic" true "B" 12 "C" ∈
      (generate_pdf tnames [pngAlphaSample, pngAlphaSample] "pic").pages.getD 0 [] ∧
    Op.rect 10 20 80 90 ∈
      (generate_pdf tnames [pngAlphaSample, pngAlphaSample] "pic").pages.getD 0 [] ∧
    Op.rect 10 110 80 90 ∈
      (generate_pdf tnames [pngAlphaSample, pngAlphaSample] "pic").pages.getD 0 [] ∧
    Op.cell 90 110 90 10 190 90 "" true "B" 12 "" ∈
      (generate_pdf tnames [pngAlphaSample, pngAlphaSample] "pic").pages.getD 1 [] ∧
    page_break_trigger = pageH - b_margin ∧ b_margin = 20 ∧
    (110 : ℤ) + row_height > page_break_trigger ∧
    footer_set_y = pageH - 15 ∧ (110 : ℤ) + row_height > footer_set_y) :=
  ⟨by decide, C10_second_row_overflow tnames "pic" pngAlphaSample pngAlphaSample
    [] ⟨320, 200, true⟩ ⟨320, 200, true⟩ (by decide) (by decide)⟩

end ItemsApp
